import Mathlib

/-!
Verification of the LAN media server's range-request engine (`src/main.py`):
the `Range`-header parser and response construction in `get_file`, the chunked
byte streamers `stream_range` and `stream_full_file`, and the filename
validation. Python strings are modelled as `List Char` via `String.data`;
file contents are modelled as `List Nat` (one element per byte); the
filesystem is modelled as an explicit predicate on names.
-/

/-- Characters stripped by Python's `str.strip()` / `int()` (ASCII whitespace;
the source only ever meets ASCII header values). -/
def pyWhitespace (c : Char) : Bool :=
  c = ' ' || c = '\t' || c = '\n' || c = '\x0d' || c = '\x0b' || c = '\x0c'

/-- Python `s.strip()`: drop leading and trailing whitespace. -/
def stripChars (l : List Char) : List Char :=
  ((l.dropWhile pyWhitespace).reverse.dropWhile pyWhitespace).reverse

/-- Python `s.split(sep)` for a one-character separator: split on every
occurrence, keeping empty pieces (`"".split("-") == [""]`,
`"-".split("-") == ["", ""]`). -/
def splitOnChar (sep : Char) : List Char → List (List Char)
  | [] => [[]]
  | c :: cs =>
    if c = sep then [] :: splitOnChar sep cs
    else
      match splitOnChar sep cs with
      | t :: ts => (c :: t) :: ts
      | [] => [[c]]

/-- `range_str.split("-")` (main.py line 128). -/
def splitOnDash : List Char → List (List Char) :=
  splitOnChar '-'

/-- Value of a digit run after its leading digit, following CPython's rule
that a single `'_'` may stand between two digits (`"1_0"` parses, `"1__0"`,
`"1_"` do not). `acc` is the value of the digits consumed so far. -/
def digitsVal? (acc : Nat) : List Char → Option Nat
  | [] => some acc
  | c :: cs =>
    if c.isDigit then digitsVal? (acc * 10 + (c.toNat - 48)) cs
    else if c = '_' then
      match cs with
      | d :: cs2 =>
        if d.isDigit then digitsVal? (acc * 10 + (d.toNat - 48)) cs2 else none
      | [] => none
    else none

/-- A digit run must begin with a digit. -/
def pyIntCore? : List Char → Option Nat
  | [] => none
  | c :: cs => if c.isDigit then digitsVal? (c.toNat - 48) cs else none

/-- Python's `int(s)`: strip whitespace, optional sign, digit run
(with CPython's underscore rule); `none` models the `ValueError`. -/
def pyInt? (l : List Char) : Option Int :=
  match stripChars l with
  | '+' :: rest => (pyIntCore? rest).map Int.ofNat
  | '-' :: rest => (pyIntCore? rest).map (fun n => -(n : Int))
  | rest => (pyIntCore? rest).map Int.ofNat

/-- The four outcomes of `get_file`'s range handling: no `Range` header
(status 200), partial content with the parsed bounds (status 206),
range not satisfiable (status 416), malformed header (status 400).
The bounds are Python ints, hence `Int`. -/
inductive RangeResult
  | noRange
  | satisfiable (start stop : Int)
  | unsatisfiable
  | malformed
deriving DecidableEq, Repr

/-- `start = int(start_str) if start_str else 0` (main.py line 130);
`none` models a `ValueError` from `int`. -/
def startVal (t : List Char) : Option Int :=
  if t = [] then some 0 else pyInt? t

/-- `end = int(end_str) if end_str else file_size - 1` (main.py line 131). -/
def endVal (t : List Char) (file_size : Nat) : Option Int :=
  if t = [] then some ((file_size : Int) - 1) else pyInt? t

/-- Lines 130-149 of main.py on the two extracted tokens: compute `start` and
`end` (a failed `int` is a `ValueError`, caught as 400), then
`if start >= file_size or start < 0 or (end_str and end < start)` raise 416
(the `HTTPException` is re-raised by the broad `except` with status 416
unchanged), else return the 206 response. -/
def parseTokens (start_str end_str : List Char) (file_size : Nat) : RangeResult :=
  match startVal start_str, endVal end_str file_size with
  | some s, some e =>
    if (file_size : Int) ≤ s ∨ s < 0 ∨ (end_str ≠ [] ∧ e < s) then
      .unsatisfiable
    else
      .satisfiable s e
  | _, _ => .malformed

/-- Lines 127-128: `range_str = range_header[6:].strip()` and
`start_str, end_str = (range_str.split("-") + [""])[:2]`.
`splitOnDash` always returns a nonempty list, so index 0 is its head and
index 1 defaults to the appended `""`. -/
def tokensOf (header : List Char) : List Char × List Char :=
  let parts := splitOnDash (stripChars (header.drop 6))
  (parts.getD 0 [], parts.getD 1 [])

/-- Lines 122-153 on a present, nonempty header: the `bytes=` prefix check
(`ValueError` → 400), token extraction, and `parseTokens`. -/
def parseRangeChars (header : List Char) (file_size : Nat) : RangeResult :=
  if List.isPrefixOf "bytes=".data header then
    parseTokens (tokensOf header).1 (tokensOf header).2 file_size
  else
    .malformed

/-- The whole range-handling of `get_file`: `request.headers.get("Range")`
returns `none` when absent, and `if range_header:` also treats an empty
string as absent (status 200 full file). -/
def parseRange (header : Option String) (file_size : Nat) : RangeResult :=
  match header with
  | none => .noRange
  | some h => if h = "" then .noRange else parseRangeChars h.data file_size

/-- Body of a response as far as the claims discriminate it: a streamed byte
body (`StreamingResponse`), or FastAPI's rendering of a raised
`HTTPException` - a JSON object `{"detail": ...}`, not an empty body. -/
inductive BodyKind
  | byteStream
  | jsonDetail
deriving DecidableEq, Repr

/-- Status, headers and body kind of a response, as built by `get_file`. -/
structure ResponseDesc where
  status : Nat
  headers : List (String × String)
  body : BodyKind
deriving DecidableEq, Repr

/-- `file_path.name`: the last `/`-separated component of the joined path. -/
def baseName (filename : String) : String :=
  String.mk ((splitOnChar '/' filename.data).getLastD filename.data)

/-- Lines 112-166 of `get_file` after resolution: base headers, then dispatch
on the range outcome. A raised `HTTPException` carries no extra headers
(FastAPI adds none), so the 416 and 400 responses have an empty header list
and a JSON detail body. -/
def getFileResponse (filename : String) (download : Bool) (file_size : Nat)
    (header : Option String) : ResponseDesc :=
  let disposition := if download then "attachment" else "inline"
  let base : List (String × String) :=
    [("Accept-Ranges", "bytes"),
     ("Content-Disposition", disposition ++ "; filename=\"" ++ baseName filename ++ "\"")]
  match parseRange header file_size with
  | .noRange =>
    { status := 200
      headers := base ++ [("Content-Length", toString file_size)]
      body := .byteStream }
  | .satisfiable s e =>
    { status := 206
      headers := base ++
        [("Content-Range", "bytes " ++ toString s ++ "-" ++ toString e ++ "/" ++ toString file_size),
         ("Content-Length", toString (e - s + 1))]
      body := .byteStream }
  | .unsatisfiable => { status := 416, headers := [], body := .jsonDetail }
  | .malformed => { status := 400, headers := [], body := .jsonDetail }

/-- Outcome of the filename validation and existence check
(lines 97-104 of main.py). -/
inductive ResolveResult
  | invalidName
  | notFound
  | ok (name : String)
deriving DecidableEq, Repr

/-- Python `".." in filename`: `".."` occurs as a contiguous substring. -/
def hasDotDot : List Char → Bool
  | '.' :: '.' :: _ => true
  | _ :: rest => hasDotDot rest
  | [] => false

/-- Line 98: `".." in filename or filename.startswith("/")`. -/
def invalidFilename (filename : String) : Bool :=
  hasDotDot filename.data || List.isPrefixOf "/".data filename.data

/-- Lines 97-104: reject traversal attempts with 400, then check
`(FILES_DIRECTORY / filename).is_file()`; the filesystem is modelled by the
predicate `is_file` on requested names. -/
def resolveFilename (is_file : String → Bool) (filename : String) : ResolveResult :=
  if invalidFilename filename then .invalidName
  else if is_file filename then .ok filename
  else .notFound

/-- One `f.read(n)` on a regular file whose bytes are `file`, with the cursor
at offset `pos`: the next `n` bytes, fewer at end of file, empty at or past
it. -/
def readAt (file : List Nat) (pos n : Nat) : List Nat :=
  (file.drop pos).take n

/-- The `while remaining > 0` loop of `stream_range` (lines 62-69):
`read_size = min(chunk_size, remaining)`, read, stop on an empty read
(`if not chunk: break`), otherwise yield the chunk and continue with the
cursor and `remaining` advanced by the chunk's length. `remaining` is a
Python int, hence `Int`. -/
def streamRangeLoop (file : List Nat) (chunk_size pos : Nat) (remaining : Int) :
    List (List Nat) :=
  if h : 0 < remaining then
    match readAt file pos (min (chunk_size : Int) remaining).toNat with
    | [] => []
    | b :: rest =>
      (b :: rest) ::
        streamRangeLoop file chunk_size (pos + (b :: rest).length)
          (remaining - (b :: rest).length)
  else []
termination_by remaining.toNat
decreasing_by
  simp only [List.length_cons]
  omega

/-- `stream_range(file_path, start, end, chunk_size)`: seek to `start`, then
the chunk loop with `remaining = end - start + 1`. `get_file` always calls it
with the validated bounds `0 <= start` (and `start <= end`). -/
def stream_range (file : List Nat) (start stop chunk_size : Nat) : List (List Nat) :=
  streamRangeLoop file chunk_size start ((stop : Int) - (start : Int) + 1)

/-- The `while chunk := f.read(chunk_size)` loop of `stream_full_file`
(lines 54-56), with the cursor at `pos`: stop on an empty read, otherwise
yield the chunk and advance. -/
def streamFullLoop (file : List Nat) (chunk_size pos : Nat) : List (List Nat) :=
  if hc : readAt file pos chunk_size = [] then []
  else
    readAt file pos chunk_size ::
      streamFullLoop file chunk_size (pos + (readAt file pos chunk_size).length)
termination_by file.length - pos
decreasing_by
  have hpos : pos < file.length := by
    by_contra hge
    have hdrop : file.drop pos = [] := List.drop_eq_nil_of_le (by omega)
    simp [readAt, hdrop] at hc
  have hlen : 0 < (readAt file pos chunk_size).length := List.length_pos.mpr hc
  omega

/-- `stream_full_file(file_path, chunk_size)`: read fixed-size chunks from
offset 0 until an empty read. -/
def stream_full_file (file : List Nat) (chunk_size : Nat) : List (List Nat) :=
  streamFullLoop file chunk_size 0

/-! ## Sanity checks, evaluating the embedded definitions on concrete inputs -/

example : splitOnDash "0-1-,2".data = ["0".data, "1".data, ",2".data] := by decide
example : splitOnDash "".data = [[]] := by decide
example : splitOnDash "-".data = [[], []] := by decide
example : pyInt? "100".data = some 100 := by decide
example : pyInt? " 42 ".data = some 42 := by decide
example : pyInt? "10,20".data = none := by decide
example : pyInt? "abc".data = none := by decide
example : pyInt? "".data = none := by decide
example : pyInt? "-5".data = some (-5) := by decide
example : pyInt? "1_0".data = some 10 := by decide
example : pyInt? "1__0".data = none := by decide
example : parseRange none 10 = .noRange := by decide
example : parseRange (some "bytes=0-") 10 = .satisfiable 0 9 := by decide
example : parseRange (some "bytes=2-5") 10 = .satisfiable 2 5 := by decide
example : parseRange (some "bytes=abc-10") 10 = .malformed := by decide
example : parseRange (some "bytes=100-") 100 = .unsatisfiable := by decide
example : parseRange (some "bytes=-5") 10 = .satisfiable 0 5 := by decide
example : parseRange (some "bytes=-") 10 = .satisfiable 0 9 := by decide
example : parseRange (some "bytes=-") 0 = .unsatisfiable := by decide
example : parseRange (some "bytes=0-1000") 10 = .satisfiable 0 1000 := by decide
example : parseRange (some "bytes=0-10,20-30") 100 = .malformed := by decide
example : parseRange (some "bytes=0-1-,2") 4 = .satisfiable 0 1 := by decide
example : parseRange (some "pages=0-5") 10 = .malformed := by decide
example :
    getFileResponse "video.mp4" false 10 (some "bytes=2-5") =
      { status := 206
        headers := [("Accept-Ranges", "bytes"),
          ("Content-Disposition", "inline; filename=\"video.mp4\""),
          ("Content-Range", "bytes 2-5/10"), ("Content-Length", "4")]
        body := .byteStream } := by decide
example : resolveFilename (fun _ => true) "../secret" = .invalidName := by decide
example : resolveFilename (fun _ => true) "/etc/passwd" = .invalidName := by decide
example : resolveFilename (fun _ => true) "my..video.mp4" = .invalidName := by decide
example : resolveFilename (fun s => s == "a/b.mp4") "a/b.mp4" = .ok "a/b.mp4" := by decide
example : resolveFilename (fun _ => false) "b.mp4" = .notFound := by decide

/-! ## General lemmas about the streamers -/

/-- Concatenating the loop's chunks recovers exactly the file's bytes from
`pos` for `remaining.toNat` positions (fewer only past end of file, which
`List.take` models as well): reads are never empty before `remaining` runs
out or the file ends. Needs a positive chunk size (Python's defaults are
8192 and 1 MiB). -/
theorem streamRangeLoop_join (file : List Nat) (chunk_size pos : Nat)
    (remaining : Int) (hcs : 0 < chunk_size) :
    (streamRangeLoop file chunk_size pos remaining).flatten =
      (file.drop pos).take remaining.toNat := by
  induction pos, remaining using streamRangeLoop.induct file chunk_size with
  | case2 pos remaining hrem b rest heq ih =>
    rw [streamRangeLoop]
    simp only [dif_pos hrem, heq, List.flatten_cons]
    rw [ih]
    simp only [readAt] at heq
    have hlen : (b :: rest).length =
        min (min (chunk_size : Int) remaining).toNat (file.drop pos).length := by
      rw [← heq, List.length_take]
    have hminle : (min (chunk_size : Int) remaining).toNat ≤ remaining.toNat := by
      omega
    have hlenle : (b :: rest).length ≤ remaining.toNat := by omega
    have hsplit : remaining.toNat = (b :: rest).length +
        (remaining - (b :: rest).length).toNat := by omega
    rw [hsplit, List.take_add, ← List.drop_drop]
    congr 1
    · rcases le_total (min (chunk_size : Int) remaining).toNat (file.drop pos).length with
        hle | hle
      · rw [hlen, min_eq_left hle, heq]
      · rw [hlen, min_eq_right hle, List.take_length, ← heq,
          List.take_of_length_le hle]
  | case1 pos remaining hrem heq =>
    rw [streamRangeLoop]
    simp only [dif_pos hrem, heq, List.flatten_nil]
    simp only [readAt] at heq
    rcases List.take_eq_nil_iff.mp heq with h0 | hnil
    · omega
    · rw [hnil, List.take_nil]
  | case3 pos remaining hrem =>
    rw [streamRangeLoop]
    simp only [dif_neg hrem, List.flatten_nil]
    rw [Int.toNat_of_nonpos (by omega), List.take_zero]

/-- Unconditional byte bound: the loop never emits more than
`remaining.toNat` bytes, whatever the chunk size and however short the
file is. -/
theorem streamRangeLoop_length_le (file : List Nat) (chunk_size pos : Nat)
    (remaining : Int) :
    (streamRangeLoop file chunk_size pos remaining).flatten.length ≤
      remaining.toNat := by
  induction pos, remaining using streamRangeLoop.induct file chunk_size with
  | case2 pos remaining hrem b rest heq ih =>
    rw [streamRangeLoop]
    simp only [dif_pos hrem, heq, List.flatten_cons, List.length_append]
    have hchunk : (b :: rest).length ≤ (min (chunk_size : Int) remaining).toNat := by
      have := congrArg List.length heq
      simp only [readAt, List.length_take] at this
      omega
    have hmin : (min (chunk_size : Int) remaining).toNat ≤ remaining.toNat := by
      omega
    omega
  | case1 pos remaining hrem heq =>
    rw [streamRangeLoop]
    simp only [dif_pos hrem, heq, List.flatten_nil, List.length_nil]
    omega
  | case3 pos remaining hrem =>
    rw [streamRangeLoop]
    simp only [dif_neg hrem, List.flatten_nil, List.length_nil]
    omega

/-- Every chunk the loop yields is nonempty: an empty read ends the loop, so
the loop always terminates (it is a total function here precisely because
`remaining` strictly decreases by each nonempty chunk's length). -/
theorem streamRangeLoop_ne_nil (file : List Nat) (chunk_size pos : Nat)
    (remaining : Int) :
    ∀ c ∈ streamRangeLoop file chunk_size pos remaining, c ≠ [] := by
  induction pos, remaining using streamRangeLoop.induct file chunk_size with
  | case2 pos remaining hrem b rest heq ih =>
    rw [streamRangeLoop]
    simp only [dif_pos hrem, heq, List.mem_cons]
    rintro c (rfl | hc)
    · simp
    · exact ih c hc
  | case1 pos remaining hrem heq =>
    rw [streamRangeLoop]
    simp only [dif_pos hrem, heq]
    intro c hc
    cases hc
  | case3 pos remaining hrem =>
    rw [streamRangeLoop]
    simp only [dif_neg hrem]
    intro c hc
    cases hc

/-- Concatenating `stream_full_file`'s chunks from cursor `pos` recovers the
file's bytes from `pos` on. -/
theorem streamFullLoop_flatten (file : List Nat) (chunk_size pos : Nat)
    (hcs : 0 < chunk_size) :
    (streamFullLoop file chunk_size pos).flatten = file.drop pos := by
  induction pos using streamFullLoop.induct file chunk_size with
  | case2 pos heq ih =>
    rw [streamFullLoop]
    simp only [dif_neg heq, List.flatten_cons]
    rw [ih]
    rw [← List.drop_drop]
    simp only [readAt, List.length_take]
    rcases le_total chunk_size (file.drop pos).length with hle | hle
    · rw [min_eq_left hle]
      exact List.take_append_drop _ _
    · rw [min_eq_right hle, List.drop_length, List.append_nil,
        List.take_of_length_le hle]
  | case1 pos heq =>
    rw [streamFullLoop]
    simp only [dif_pos heq, List.flatten_nil]
    simp only [readAt] at heq
    rcases List.take_eq_nil_iff.mp heq with h0 | hnil
    · omega
    · rw [hnil]

/-! ## General lemmas about the parser -/

/-- An element that the predicate rejects survives `dropWhile`. -/
theorem mem_dropWhile_of_mem {p : Char → Bool} {c : Char} {l : List Char}
    (hm : c ∈ l) (hp : p c = false) : c ∈ l.dropWhile p := by
  induction l with
  | nil => cases hm
  | cons a as ih =>
    rw [List.dropWhile_cons]
    by_cases ha : p a = true
    · rcases List.mem_cons.mp hm with rfl | hmem
      · rw [hp] at ha
        cases ha
      · simp only [ha, if_pos]
        exact ih hmem
    · simp only [eq_false_of_ne_true ha, Bool.false_eq_true, if_neg, not_false_iff]
      exact hm

/-- A non-whitespace character survives Python's `strip()`. -/
theorem mem_stripChars_of_mem {c : Char} {l : List Char} (hm : c ∈ l)
    (hw : pyWhitespace c = false) : c ∈ stripChars l := by
  unfold stripChars
  rw [List.mem_reverse]
  exact mem_dropWhile_of_mem (List.mem_reverse.mpr (mem_dropWhile_of_mem hm hw)) hw

/-- A digit run cannot contain a character that is neither a digit nor an
underscore. -/
theorem digitsVal?_eq_none {c : Char} (hd : c.isDigit = false) (hu : c ≠ '_') :
    ∀ (acc : Nat) (l : List Char), c ∈ l → digitsVal? acc l = none := by
  have hud : ('_'.isDigit) = false := by decide
  intro acc l
  induction acc, l using digitsVal?.induct with
  | case1 acc => intro hm; cases hm
  | case2 acc a as ha ih =>
    intro hm
    rw [digitsVal?.eq_def]
    simp only [ha, if_true]
    rcases List.mem_cons.mp hm with rfl | hmem
    · rw [hd] at ha
      cases ha
    · exact ih hmem
  | case3 acc d cs2 hdig hnd ih =>
    intro hm
    rw [digitsVal?.eq_def]
    simp only [hud, Bool.false_eq_true, if_false, if_true, hdig]
    rcases List.mem_cons.mp hm with rfl | hmem
    · exact absurd rfl hu
    · rcases List.mem_cons.mp hmem with rfl | hmem2
      · rw [hd] at hdig
        cases hdig
      · exact ih hmem2
  | case4 acc d cs2 hnd h2 =>
    intro hm
    rw [digitsVal?.eq_def]
    simp [hud, hnd]
  | case5 acc h2 =>
    intro hm
    rw [digitsVal?.eq_def]
    simp [hud]
  | case6 acc a as ha hne =>
    intro hm
    rw [digitsVal?.eq_def]
    simp [eq_false_of_ne_true ha, hne]

/-- A token containing a comma is not a digit run. -/
theorem pyIntCore?_comma {l : List Char} (hm : ',' ∈ l) : pyIntCore? l = none := by
  cases l with
  | nil => rfl
  | cons a as =>
    rw [pyIntCore?]
    by_cases ha : a.isDigit = true
    · simp only [ha, if_true]
      rcases List.mem_cons.mp hm with rfl | hmem
      · cases ha
      · exact digitsVal?_eq_none (by decide) (by decide) _ _ hmem
    · simp [ha]

/-- Python's `int()` raises `ValueError` on any token containing a comma:
a comma is not whitespace (so survives the strip), not a sign, not a digit
and not an underscore. -/
theorem pyInt?_comma {l : List Char} (hm : ',' ∈ l) : pyInt? l = none := by
  have hm' : ',' ∈ stripChars l := mem_stripChars_of_mem hm (by decide)
  rw [pyInt?]
  split
  · rename_i rest heq
    rw [heq] at hm'
    rcases List.mem_cons.mp hm' with h | hmem
    · exact absurd h (by decide)
    · rw [pyIntCore?_comma hmem]
      rfl
  · rename_i rest heq
    rw [heq] at hm'
    rcases List.mem_cons.mp hm' with h | hmem
    · exact absurd h (by decide)
    · rw [pyIntCore?_comma hmem]
      rfl
  · rw [pyIntCore?_comma hm']
    rfl

/-- `start = int(start_str)` fails on a comma-bearing token. -/
theorem startVal_comma {t : List Char} (hm : ',' ∈ t) : startVal t = none := by
  rw [startVal, if_neg (by rintro rfl; cases hm)]
  exact pyInt?_comma hm

/-- `end = int(end_str)` fails on a comma-bearing token. -/
theorem endVal_comma {t : List Char} (file_size : Nat) (hm : ',' ∈ t) :
    endVal t file_size = none := by
  rw [endVal, if_neg (by rintro rfl; cases hm)]
  exact pyInt?_comma hm

/-- If either extracted token carries a comma, the `int()` conversion raises
and `get_file` answers 400. -/
theorem parseTokens_comma {t0 t1 : List Char} (file_size : Nat)
    (hm : ',' ∈ t0 ∨ ',' ∈ t1) : parseTokens t0 t1 file_size = .malformed := by
  rcases hm with hm | hm
  · rw [parseTokens, startVal_comma hm]
  · rw [parseTokens, endVal_comma file_size hm]
    rcases startVal t0 with _ | s <;> rfl

/-! ## Claims -/

/-- C1. The claim states that every Satisfiable (206) outcome has
`0 <= start <= end < fileSize`, with `end` clamped to `fileSize - 1` when
the explicit end token exceeds it, and `Content-Length = end - start + 1`.
The code never clamps: `Range: bytes=0-7` against a 3-byte file parses as
`Satisfiable(0, 7)` with `end = 7 >= 3`, and the 206 response advertises
`Content-Range: bytes 0-7/3` and `Content-Length: 8` while the streamer can
only emit the 3 bytes that exist - the response promises more bytes than
its body carries. -/
theorem c1_end_not_clamped_bug :
    parseRange (some "bytes=0-7") 3 = .satisfiable 0 7 ∧
    getFileResponse "a.bin" false 3 (some "bytes=0-7") =
      { status := 206
        headers := [("Accept-Ranges", "bytes"),
          ("Content-Disposition", "inline; filename=\"a.bin\""),
          ("Content-Range", "bytes 0-7/3"), ("Content-Length", "8")]
        body := .byteStream } ∧
    (stream_range [5, 6, 7] 0 7 8192).flatten.length = 3 := by
  refine ⟨by decide, by decide, ?_⟩
  rw [stream_range, streamRangeLoop_join _ _ _ _ (by decide)]
  decide

/-- C2. The claim states that a suffix range `bytes=-N` against a file of
size `S > 0` yields `start = max(0, S - N)`, `end = S - 1`. The code
instead turns the empty start token into `start = 0` and keeps `end = N`:
`bytes=-5` against a 10-byte file yields `Satisfiable(0, 5)` - the first
six bytes - where the claim requires `Satisfiable(5, 9)`, the last five. -/
theorem c2_suffix_range_bug :
    parseRange (some "bytes=-5") 10 = .satisfiable 0 5 ∧
    (getFileResponse "a.bin" false 10 (some "bytes=-5")).headers =
      [("Accept-Ranges", "bytes"),
       ("Content-Disposition", "inline; filename=\"a.bin\""),
       ("Content-Range", "bytes 0-5/10"), ("Content-Length", "6")] ∧
    RangeResult.satisfiable 0 5 ≠ .satisfiable 5 9 := by decide

/-- C3 (counterexample). The claim states that `bytes=-` (both tokens
empty) is Malformed (400) for every file size. Against a 10-byte file the
code parses it as `Satisfiable(0, 9)` - a 206 covering the whole file -
because both empty tokens take their defaults and the `end < start` guard
is skipped when the end token is empty. -/
theorem c3_counterexample :
    parseRange (some "bytes=-") 10 = .satisfiable 0 9 ∧
    parseRange (some "bytes=-") 10 ≠ .malformed := by decide

/-- C3 (amended). `bytes=-` is never Malformed: it yields
`Satisfiable(0, fileSize - 1)` (status 206, the whole file as partial
content) on a nonempty file, and Unsatisfiable (416) on an empty file. -/
theorem c3_amended_bytes_dash (n : Nat) :
    parseRange (some "bytes=-") n =
      if n = 0 then .unsatisfiable else .satisfiable 0 ((n : Int) - 1) := by
  have h : parseRange (some "bytes=-") n = parseTokens [] [] n := rfl
  rw [h, parseTokens, startVal, endVal, if_pos rfl, if_pos rfl]
  show (if ((n : Int) ≤ 0 ∨ (0 : Int) < 0 ∨ (([] : List Char) ≠ [] ∧ (n : Int) - 1 < 0))
      then RangeResult.unsatisfiable else RangeResult.satisfiable 0 ((n : Int) - 1)) = _
  rcases Nat.eq_zero_or_pos n with rfl | hn
  · rw [if_pos (Or.inl (by omega)), if_pos rfl]
  · rw [if_neg ?_, if_neg (by omega)]
    rintro (h1 | h2 | ⟨h3, h4⟩)
    · omega
    · omega
    · exact h3 rfl

/-- C4 (counterexample). The claim states that every Unsatisfiable outcome
produces status 416 with a `Content-Range: bytes */{fileSize}` header and
an empty body. The code raises `HTTPException(416)`, which FastAPI renders
with no extra headers at all and a JSON `{"detail": ...}` body: at
`bytes=100-` against a 10-byte file the response has an empty header list -
in particular no `Content-Range` - and a JSON body. -/
theorem c4_counterexample :
    getFileResponse "video.mp4" false 10 (some "bytes=100-") =
      { status := 416, headers := [], body := .jsonDetail } ∧
    ("Content-Range", "bytes */10") ∉
      (getFileResponse "video.mp4" false 10 (some "bytes=100-")).headers ∧
    (getFileResponse "video.mp4" false 10 (some "bytes=100-")).body ≠ .byteStream := by
  decide

/-- C4 (amended). Every Unsatisfiable outcome produces status 416 with no
headers beyond FastAPI's defaults (in particular no `Content-Range`) and a
JSON `{"detail": ...}` body rather than an empty one. -/
theorem c4_amended_unsatisfiable_response (filename : String) (download : Bool)
    (file_size : Nat) (header : Option String)
    (hu : parseRange header file_size = .unsatisfiable) :
    getFileResponse filename download file_size header =
      { status := 416, headers := [], body := .jsonDetail } := by
  simp only [getFileResponse, hu]

/-- C4 (witness for the amended theorem). -/
theorem c4_amended_unsatisfiable_response_witness :
    getFileResponse "a.mp4" true 10 (some "bytes=99-100") =
      { status := 416, headers := [], body := .jsonDetail } :=
  c4_amended_unsatisfiable_response "a.mp4" true 10 (some "bytes=99-100") (by decide)

/-- C5. Streaming a validated range `(start, stop)` with
`0 <= start <= stop < file.length` emits exactly `stop - start + 1` bytes,
equal to the file's bytes at those offsets; and concatenating all chunks of
the whole-file streamer recovers the full file content. Holds for every
positive chunk size (the source defaults are 8192 and 1 MiB). -/
theorem c5_stream_exact :
    (∀ (file : List Nat) (chunk_size start stop : Nat),
      0 < chunk_size → start ≤ stop → stop < file.length →
      (stream_range file start stop chunk_size).flatten =
        (file.drop start).take (stop - start + 1) ∧
      (stream_range file start stop chunk_size).flatten.length = stop - start + 1) ∧
    (∀ (file : List Nat) (chunk_size : Nat), 0 < chunk_size →
      (stream_full_file file chunk_size).flatten = file) := by
  constructor
  · intro file cs s e hcs hse hef
    have hj : (stream_range file s e cs).flatten = (file.drop s).take (e - s + 1) := by
      rw [stream_range, streamRangeLoop_join _ _ _ _ hcs]
      congr 1
      omega
    refine ⟨hj, ?_⟩
    rw [hj, List.length_take, List.length_drop]
    omega
  · intro file cs hcs
    rw [stream_full_file, streamFullLoop_flatten _ _ _ hcs, List.drop_zero]

/-- C5 (witness). A 5-byte file streamed over the range `[1, 3]` in chunks
of 2 yields exactly bytes 1..3, and the whole-file streamer round-trips. -/
theorem c5_stream_exact_witness :
    (stream_range [3, 4, 5, 6, 7] 1 3 2).flatten = [4, 5, 6] ∧
    (stream_range [3, 4, 5, 6, 7] 1 3 2).flatten.length = 3 ∧
    (stream_full_file [3, 4, 5] 2).flatten = [3, 4, 5] := by
  have h := c5_stream_exact.1 [3, 4, 5, 6, 7] 2 1 3 (by decide) (by decide) (by decide)
  have h2 := c5_stream_exact.2 [3, 4, 5] 2 (by decide)
  exact ⟨h.1.trans (by decide), h.2, h2⟩

/-- C6 (counterexample). The claim states that every Range header
containing a comma is Malformed (400) for every file size. But
`(range_str.split("-") + [""])[:2]` silently drops tokens after the second
`-`: `bytes=0-1-,2` contains a comma, yet against a 4-byte file it parses
as `Satisfiable(0, 1)` because the comma lives in the discarded third
token. -/
theorem c6_counterexample :
    (',' ∈ "bytes=0-1-,2".data) ∧
    parseRange (some "bytes=0-1-,2") 4 = .satisfiable 0 1 ∧
    parseRange (some "bytes=0-1-,2") 4 ≠ .malformed := by decide

/-- C6 (amended). A comma forces Malformed exactly when it survives into
one of the two tokens the code actually examines - the pieces before the
first `-` and between the first and second `-` (this covers every genuine
multi-range header such as `bytes=0-10,20-30`). A comma in a later,
discarded token does not. -/
theorem c6_amended_comma_malformed (h : String) (file_size : Nat)
    (hm : ',' ∈ (tokensOf h.data).1 ∨ ',' ∈ (tokensOf h.data).2) :
    parseRange (some h) file_size = .malformed := by
  have hne : ¬(h = "") := by
    rintro rfl
    rcases hm with hm | hm <;> exact absurd hm (by decide)
  rw [parseRange, if_neg hne, parseRangeChars]
  by_cases hpre : List.isPrefixOf "bytes=".data h.data = true
  · rw [if_pos hpre]
    exact parseTokens_comma file_size hm
  · rw [if_neg hpre]

/-- C6 (witness for the amended theorem): the ordinary multi-range header
is rejected. -/
theorem c6_amended_comma_malformed_witness :
    parseRange (some "bytes=0-10,20-30") 100 = .malformed :=
  c6_amended_comma_malformed "bytes=0-10,20-30" 100 (Or.inr (by decide))

/-- C7. Any well-formed `bytes=` range (both `int()` conversions succeed)
whose parsed start is at least the file size is answered Unsatisfiable
(416); the broad `except` re-raises the `HTTPException` with its 416
status. Covers `bytes=100-` on a 100-byte file and any well-formed range
against a zero-length file, since parsed starts are never negative. -/
theorem c7_start_ge_size_unsatisfiable (h : String) (file_size : Nat) (s e : Int)
    (hpre : List.isPrefixOf "bytes=".data h.data = true)
    (hs : startVal (tokensOf h.data).1 = some s)
    (he : endVal (tokensOf h.data).2 file_size = some e)
    (hge : (file_size : Int) ≤ s) :
    parseRange (some h) file_size = .unsatisfiable := by
  have hne : ¬(h = "") := by
    rintro rfl
    exact absurd hpre (by decide)
  rw [parseRange, if_neg hne, parseRangeChars, if_pos hpre, parseTokens, hs, he]
  exact if_pos (Or.inl hge)

/-- C7 (witness): `bytes=100-` on a 100-byte file, and `bytes=0-` on an
empty file. -/
theorem c7_start_ge_size_unsatisfiable_witness :
    parseRange (some "bytes=100-") 100 = .unsatisfiable ∧
    parseRange (some "bytes=0-") 0 = .unsatisfiable :=
  ⟨c7_start_ge_size_unsatisfiable "bytes=100-" 100 100 99
      (by decide) (by decide) (by decide) (by decide),
    c7_start_ge_size_unsatisfiable "bytes=0-" 0 0 (-1)
      (by decide) (by decide) (by decide) (by decide)⟩

/-- C8. The filename check rejects `"../secret"` and `"/etc/passwd"` with
`InvalidName` (400) whatever the filesystem contains, and accepts a nested
relative name under the root whenever the joined path is a regular file. -/
theorem c8_resolver_rejects_traversal (is_file : String → Bool) :
    resolveFilename is_file "../secret" = .invalidName ∧
    resolveFilename is_file "/etc/passwd" = .invalidName ∧
    (is_file "movies/clip.mp4" = true →
      resolveFilename is_file "movies/clip.mp4" = .ok "movies/clip.mp4") := by
  refine ⟨?_, ?_, ?_⟩
  · rw [resolveFilename, if_pos (show invalidFilename "../secret" = true by decide)]
  · rw [resolveFilename, if_pos (show invalidFilename "/etc/passwd" = true by decide)]
  · intro hf
    rw [resolveFilename,
      if_neg (show ¬(invalidFilename "movies/clip.mp4" = true) by decide), if_pos hf]

/-- C8 (witness): a filesystem holding exactly `movies/clip.mp4`. -/
theorem c8_resolver_rejects_traversal_witness :
    resolveFilename (fun s => s == "movies/clip.mp4") "../secret" = .invalidName ∧
    resolveFilename (fun s => s == "movies/clip.mp4") "/etc/passwd" = .invalidName ∧
    resolveFilename (fun s => s == "movies/clip.mp4") "movies/clip.mp4" =
      .ok "movies/clip.mp4" := by
  obtain ⟨h1, h2, h3⟩ := c8_resolver_rejects_traversal (fun s => s == "movies/clip.mp4")
  exact ⟨h1, h2, h3 (by decide)⟩

/-- C9. Any requested name containing `..` as a substring - even inside a
single component that never leaves the root, like `my..video.mp4` - is
answered `InvalidName` (400) for every state of the filesystem (the
quantification over `is_file` captures that the filesystem is never
consulted), so such files can never be served. -/
theorem c9_dotdot_always_rejected (filename : String)
    (hm : hasDotDot filename.data = true) (is_file : String → Bool) :
    resolveFilename is_file filename = .invalidName := by
  have hv : invalidFilename filename = true := by
    rw [invalidFilename, hm, Bool.true_or]
  rw [resolveFilename, if_pos hv]

/-- C9 (witness): `my..video.mp4` is rejected even though the filesystem
(`fun _ => true`) says every name is a regular file. -/
theorem c9_dotdot_always_rejected_witness :
    resolveFilename (fun _ => true) "my..video.mp4" = .invalidName :=
  c9_dotdot_always_rejected "my..video.mp4" (by decide) (fun _ => true)

/-- C10. For every file and every interval with `stop >= start` the range
streamer emits at most `stop - start + 1` bytes, for any chunk size, even
when the interval extends past the end of the file; and every chunk it
yields is nonempty - the empty read ends the loop, which is exactly why
`stream_range` is total (its well-founded recursion strictly decreases
`remaining` by each nonempty chunk's length). -/
theorem c10_stream_bounded (file : List Nat) (chunk_size start stop : Nat)
    (hse : start ≤ stop) :
    (stream_range file start stop chunk_size).flatten.length ≤ stop - start + 1 ∧
    ∀ c ∈ stream_range file start stop chunk_size, c ≠ [] := by
  constructor
  · have hb := streamRangeLoop_length_le file chunk_size start ((stop : Int) - start + 1)
    rw [stream_range]
    omega
  · rw [stream_range]
    exact streamRangeLoop_ne_nil _ _ _ _

/-- C10 (witness): a 2-byte file asked for bytes 0..9 emits at most 10
bytes (in fact 2) and no empty chunks. -/
theorem c10_stream_bounded_witness :
    (stream_range [7, 8] 0 9 8192).flatten.length ≤ 9 - 0 + 1 ∧
    ∀ c ∈ stream_range [7, 8] 0 9 8192, c ≠ [] :=
  c10_stream_bounded [7, 8] 8192 0 9 (by decide)
